import Mathlib

/-!
Shallow embedding of the trajectory-generation pipeline of `src/data.py`
(TLE download/plot script): launch-group derivation, TLE validity
assessment, TEME→ECEF→geodetic conversion, antimeridian (IDL) correction,
trajectory generation and the per-satellite orchestrator loop.

Modelling conventions:
* Python `str` values are Lean `String`s; Python slices `s[a:b]` become
  `pySlice` (slicing in Python is total and never raises).
* Python `int(...)` / `float(...)` on the epoch fields are modelled by
  `pyParseInt` / `pyParseFloat`; the numeric value is kept as an exact
  rational (binary-float rounding, and underscore digit separators, are
  not modelled; both are irrelevant at the resolutions appearing here).
  `float` specials `inf` / `infinity` / `nan` (any case, optional sign)
  are modelled, since they decide whether an exception escapes
  `is_tle_valid`.
* `datetime` instants are rationals counting proleptic-Gregorian ordinal
  days (`datetime.toordinal` plus the fractional time of day), which is
  exact at the sub-microsecond level for the fixed-point epoch fields.
  `timedelta.days` is the floor of the length in days.
* Real-valued geometry (`math.sin`, `atan2`, `sqrt`, ...) lives in `ℝ`;
  `math.atan2 y x` is `Complex.arg ⟨x, y⟩`, which has exactly the C
  `atan2` convention on reals without signed zeros.
* The external SGP4 propagator (`satellite.sgp4`) is an oracle parameter
  `ℚ → ℚ → ℤ × ℝ × ℝ × ℝ` taking the Julian-date pair `(jd, fr)` and
  returning an error code and a TEME position, per the spec's black-box
  treatment.
* A Python function that can let an exception escape is modelled with
  `Option`/`Except`: `none`/`.error` means an exception propagates to the
  caller.
-/

namespace Starlink

/-- Python slice `s[a:b]` (for `a ≤ b`), as a list of characters.
Slicing in Python never raises and simply truncates at the string end. -/
def pySlice (s : String) (a b : Nat) : List Char :=
  (s.data.drop a).take (b - a)

/-- Python string comparison `xs < ys` (lexicographic on code points),
used by `line1[9:17][:2] > "57"` in `get_launch_group`. -/
def pyStrLt : List Char → List Char → Bool
  | [], [] => false
  | [], _ :: _ => true
  | _ :: _, [] => false
  | a :: as, b :: bs =>
      if a.toNat < b.toNat then true
      else if b.toNat < a.toNat then false
      else pyStrLt as bs

/-- Numeric value of a decimal digit character (code point minus 48). -/
def digitVal (c : Char) : Nat := c.toNat - 48

/-- Embedding of `get_launch_group(line1)` from `src/data.py`.

```python
international_designator = line1[9:17]
launch_year = "19" + international_designator[:2]
    if international_designator[:2] > "57" else "20" + international_designator[:2]
launch_number = international_designator[2:5]
return f"{launch_year}-Launch-{launch_number}"
```

The surrounding `try/except` (returning `"Unknown"`) is not represented:
on a `str` argument every operation in the `try` block (slicing, string
comparison, f-string formatting) is total in Python, so the `except`
branch is unreachable and the function always returns the assembled
label. -/
def get_launch_group (line1 : String) : String :=
  let international_designator := pySlice line1 9 17
  let yy := international_designator.take 2
  let launch_year : String :=
    if pyStrLt ['5', '7'] yy then "19" ++ ⟨yy⟩ else "20" ++ ⟨yy⟩
  let launch_number := (international_designator.drop 2).take 3
  launch_year ++ "-Launch-" ++ ⟨launch_number⟩

/-- All characters are decimal digits and the list is nonempty:
the shape of digit runs accepted by Python `int`/`float`. -/
def allDigits (cs : List Char) : Bool := !cs.isEmpty && cs.all Char.isDigit

/-- Value of a run of decimal digits. -/
def digitsVal (cs : List Char) : Nat :=
  cs.foldl (fun n c => 10 * n + digitVal c) 0

/-- Python `int(s)`: optional surrounding whitespace, optional sign, then a
nonempty run of decimal digits. Returns `none` when `int` would raise
`ValueError`. -/
def pyParseInt (cs : List Char) : Option Int :=
  let cs := (((cs.dropWhile Char.isWhitespace).reverse).dropWhile Char.isWhitespace).reverse
  match cs with
  | '+' :: rest => if allDigits rest then some (digitsVal rest : Int) else none
  | '-' :: rest => if allDigits rest then some (-(digitsVal rest : Int)) else none
  | rest => if allDigits rest then some (digitsVal rest : Int) else none

/-- Result of Python `float(s)`: a finite value (kept exact as a rational)
or one of the specials accepted by `float`. -/
inductive PyFloat where
  | finite (q : ℚ)
  | inf
  | negInf
  | nan
deriving DecidableEq

/-- Mantissa-and-exponent part of Python `float(s)` after sign removal:
`digits[.digits] | .digits`, optionally followed by `(e|E)[sign]digits`. -/
def pyParseUnsignedFloat (cs : List Char) : Option ℚ :=
  let mant := cs.takeWhile (fun c => !(c == 'e') && !(c == 'E'))
  let expTail := cs.dropWhile (fun c => !(c == 'e') && !(c == 'E'))
  let expVal : Option Int :=
    match expTail with
    | [] => some 0
    | _ :: t =>
      match t with
      | '+' :: d => if allDigits d then some (digitsVal d : Int) else none
      | '-' :: d => if allDigits d then some (-(digitsVal d : Int)) else none
      | d => if allDigits d then some (digitsVal d : Int) else none
  let ip := mant.takeWhile (fun c => !(c == '.'))
  let fpTail := mant.dropWhile (fun c => !(c == '.'))
  let mantVal : Option ℚ :=
    match fpTail with
    | [] => if allDigits ip then some (digitsVal ip : ℚ) else none
    | _ :: f =>
        if (!ip.isEmpty || !f.isEmpty) && ip.all Char.isDigit && f.all Char.isDigit
        then some ((digitsVal ip : ℚ) + (digitsVal f : ℚ) / (10 : ℚ) ^ f.length)
        else none
  match mantVal, expVal with
  | some m, some e => some (m * (10 : ℚ) ^ e)
  | _, _ => none

/-- Python `float(s)`: optional surrounding whitespace, optional sign,
then either a decimal literal or (case-insensitively) `inf`, `infinity`
or `nan`. Returns `none` when `float` would raise `ValueError`. -/
def pyParseFloat (cs : List Char) : Option PyFloat :=
  let cs := (((cs.dropWhile Char.isWhitespace).reverse).dropWhile Char.isWhitespace).reverse
  let signedBody : Bool × List Char :=
    match cs with
    | '+' :: r => (false, r)
    | '-' :: r => (true, r)
    | r => (false, r)
  let neg := signedBody.1
  let body := signedBody.2
  let lower := body.map Char.toLower
  if lower = ['i', 'n', 'f'] ∨ lower = ['i', 'n', 'f', 'i', 'n', 'i', 't', 'y'] then
    some (if neg then PyFloat.negInf else PyFloat.inf)
  else if lower = ['n', 'a', 'n'] then
    some PyFloat.nan
  else
    (pyParseUnsignedFloat body).map (fun q => PyFloat.finite (if neg then -q else q))

/-- Proleptic-Gregorian ordinal of January 1 of year `y` (for `y ≥ 1`),
i.e. Python `datetime(y, 1, 1).toordinal()`:
`365·(y−1) + (y−1)//4 − (y−1)//100 + (y−1)//400 + 1`. -/
def datetimeOrdinal (y : Int) : Int :=
  let n := (y - 1).toNat
  ((365 * n + n / 4 + n / 400 + 1 : Nat) : Int) - ((n / 100 : Nat) : Int)

/-- Embedding of `is_tle_valid(line1)` from `src/data.py`, with the current
time `now` (Python `datetime.utcnow()`) as an explicit parameter in
fractional ordinal days.

```python
if len(line1) < 32: return False
try:
    epoch_year = int(line1[18:20])
    epoch_day = float(line1[20:32])
    epoch_year += 2000 if epoch_year < 57 else 1900
    epoch_date = datetime(epoch_year, 1, 1) + timedelta(days=epoch_day - 1)
    days_diff = (datetime.utcnow() - epoch_date).days
    return days_diff < 30
except (ValueError, IndexError) as e:
    return False
```

`none` models an exception escaping the function: `timedelta(days=x)`
raises `OverflowError` (not caught by the `except` clause) for an
infinite `x` or an `x` beyond ±999999999 days, and `datetime + timedelta`
raises `OverflowError` when the resulting date leaves the supported
ordinal range `[1, 3652059]`. `timedelta(days=nan)` and an out-of-range
`datetime` year raise `ValueError`, which is caught. -/
def is_tle_valid (line1 : String) (now : ℚ) : Option Bool :=
  if line1.length < 32 then some false
  else
    match pyParseInt (pySlice line1 18 20), pyParseFloat (pySlice line1 20 32) with
    | some ey, some ed =>
        let year := ey + (if ey < 57 then 2000 else 1900)
        if year < 1 ∨ 9999 < year then some false
        else
          match ed with
          | PyFloat.nan => some false
          | PyFloat.inf => none
          | PyFloat.negInf => none
          | PyFloat.finite d =>
              if d - 1 < -999999999 ∨ (1000000000 : ℚ) ≤ d - 1 then none
              else
                let epoch : ℚ := (datetimeOrdinal year : ℚ) + (d - 1)
                if ⌊epoch⌋ < 1 ∨ 3652059 < ⌊epoch⌋ then none
                else some (decide (⌊now - epoch⌋ < 30))
    | _, _ => some false

/-- Decoded epoch timestamp of a TLE, in fractional ordinal days: the
value of `datetime(epoch_year, 1, 1) + timedelta(days=epoch_day - 1)`
after the two-digit-year adjustment of `is_tle_valid`. -/
def tleEpoch (ey : Int) (d : ℚ) : ℚ :=
  (datetimeOrdinal (ey + (if ey < 57 then 2000 else 1900)) : ℚ) + (d - 1)

/-- WGS84 semi-major axis in kilometers (`WGS84_A` in `src/data.py`). -/
noncomputable def WGS84_A : ℝ := 6378.137

/-- WGS84 semi-minor axis in kilometers (`WGS84_B` in `src/data.py`). -/
noncomputable def WGS84_B : ℝ := 6356.7523142

/-- First eccentricity squared: `1 - WGS84_B**2 / WGS84_A**2`. -/
noncomputable def WGS84_E2 : ℝ := 1 - WGS84_B ^ 2 / WGS84_A ^ 2

/-- Second eccentricity squared: `WGS84_A**2 / WGS84_B**2 - 1`. -/
noncomputable def WGS84_EP2 : ℝ := WGS84_A ^ 2 / WGS84_B ^ 2 - 1

/-- C-style `atan2 y x` on exact reals, as the complex argument of
`x + y·i`: the angle in `(-π, π]` with `atan2` of a positive real axis
value being `0`, of a negative one `π`, and `atan2 0 0 = 0`, exactly as
`math.atan2` behaves on floats apart from signed zeros, which exact
reals do not have. -/
noncomputable def atan2 (y x : ℝ) : ℝ := Complex.arg ⟨x, y⟩

/-- Python float modulo `a % b` for `b > 0`: `a - b·⌊a/b⌋`
(the result carries the sign of the divisor). -/
noncomputable def pyFMod (a b : ℝ) : ℝ := a - b * ⌊a / b⌋

/-- Python `math.radians`. -/
noncomputable def radians (d : ℝ) : ℝ := d * (Real.pi / 180)

/-- Python `math.degrees`. -/
noncomputable def degrees (r : ℝ) : ℝ := r * 180 / Real.pi

/-- Embedding of `gstime(jdut1)` from `src/data.py`: Greenwich Mean
Sidereal Time in radians from a Julian date, via the IAU polynomial. -/
noncomputable def gstime (jdut1 : ℝ) : ℝ :=
  let tut1 := (jdut1 - 2451545.0) / 36525.0
  let temp :=
    -6.2e-6 * tut1 ^ 3 + 0.093104 * tut1 ^ 2 +
      (876600.0 * 3600 + 8640184.812866) * tut1 + 67310.54841
  let tempDeg := pyFMod temp 86400.0 / 240.0
  radians (pyFMod tempDeg 360.0)

/-- Embedding of `teme_to_ecef(teme_position_km, jd_ut1)` from
`src/data.py`: rotate the TEME position about the polar axis by GMST. -/
noncomputable def teme_to_ecef (p : ℝ × ℝ × ℝ) (jd_ut1 : ℝ) : ℝ × ℝ × ℝ :=
  let gmst := gstime jd_ut1
  (Real.cos gmst * p.1 + Real.sin gmst * p.2.1,
   -Real.sin gmst * p.1 + Real.cos gmst * p.2.1,
   p.2.2)

/-- Embedding of `ecef_to_geodetic(x_km, y_km, z_km)` from `src/data.py`:
closed-form (Bowring-style) geodetic conversion on the WGS84 ellipsoid.
Returns `(lat_deg, lon_deg, alt_m)` in the source's order. -/
noncomputable def ecef_to_geodetic (x_km y_km z_km : ℝ) : ℝ × ℝ × ℝ :=
  let p := Real.sqrt (x_km ^ 2 + y_km ^ 2)
  let lon := if p = 0 then 0 else atan2 y_km x_km
  let theta := atan2 (z_km * WGS84_A) (p * WGS84_B)
  let sin_theta := Real.sin theta
  let cos_theta := Real.cos theta
  let lat := atan2 (z_km + WGS84_EP2 * WGS84_B * sin_theta ^ 3)
                   (p - WGS84_E2 * WGS84_A * cos_theta ^ 3)
  let sin_lat := Real.sin lat
  let N := WGS84_A / Real.sqrt (1 - WGS84_E2 * sin_lat ^ 2)
  let alt_km := p / Real.cos lat - N
  let lon_deg := pyFMod (degrees lon + 180.0) 360.0 - 180.0
  (degrees lat, lon_deg, alt_km * 1000.0)

/-- Embedding of `teme_to_latlonalt(position_km, jd, fr)` from
`src/data.py`. -/
noncomputable def teme_to_latlonalt (position_km : ℝ × ℝ × ℝ) (jd fr : ℚ) : ℝ × ℝ × ℝ :=
  let jd_ut1 : ℝ := (jd : ℝ) + (fr : ℝ)
  let e := teme_to_ecef position_km jd_ut1
  ecef_to_geodetic e.1 e.2.1 e.2.2

/-- Embedding of `is_valid_point(lat, lon)` from `src/data.py`. -/
def is_valid_point (lat lon : ℝ) : Prop :=
  -90 ≤ lat ∧ lat ≤ 90 ∧ -180 ≤ lon ∧ lon ≤ 180

/-- Loop of `fix_idl_crossings`, carrying the running `offset` and the
previous adjusted longitude (`none` before the first point), generic over
the ordered field supplying the coordinates:

```python
for lon, lat, alt in trajectory:
    if prev_lon is not None:
        diff = (lon + offset) - prev_lon
        if diff > 180.0: offset -= 360.0
        elif diff < -180.0: offset += 360.0
    adjusted_lon = lon + offset
    fixed.append([adjusted_lon, lat, alt])
    prev_lon = adjusted_lon
```
-/
def fixLoop {α : Type} [LinearOrderedField α] :
    List (α × α × α) → α → Option α → List (α × α × α)
  | [], _, _ => []
  | q :: rest, offset, none =>
      (q.1 + offset, q.2.1, q.2.2) :: fixLoop rest offset (some (q.1 + offset))
  | q :: rest, offset, some pl =>
      let offset' :=
        if q.1 + offset - pl > 180 then offset - 360
        else if q.1 + offset - pl < -180 then offset + 360
        else offset
      (q.1 + offset', q.2.1, q.2.2) :: fixLoop rest offset' (some (q.1 + offset'))

/-- Embedding of `fix_idl_crossings(trajectory)` from `src/data.py`
(the `if not trajectory: return []` early exit coincides with running the
loop on the empty list). Points are `(lon, lat, alt)` triples. -/
def fix_idl_crossings {α : Type} [LinearOrderedField α]
    (trajectory : List (α × α × α)) : List (α × α × α) :=
  fixLoop trajectory 0 none

/-- Python `int(q)` on an exact value: truncation toward zero. -/
def pyIntTrunc (q : ℚ) : Int := if q < 0 then -⌊-q⌋ else ⌊q⌋

/-- The `total_steps = int((duration_hours * 60) / time_step_minutes)`
computation of `generate_trajectory_with_timestamps`. -/
def total_steps_of (duration_hours time_step_minutes : ℚ) : Int :=
  pyIntTrunc (duration_hours * 60 / time_step_minutes)

/-- Modelled from `sgp4.api.jday` applied to the civil fields of a
`datetime` given here as fractional ordinal days `t`: the Julian date of
the date part (ending in .5) and the fraction of day rebuilt from whole
hours/minutes/seconds, so the sub-second part of `t` is dropped exactly
as `jday(..., current_time.second)` drops microseconds. -/
def jday (t : ℚ) : ℚ × ℚ :=
  ((⌊t⌋ : ℚ) + 1721424.5, (⌊(t - ⌊t⌋) * 86400⌋ : ℚ) / 86400)

open Classical in
/-- Loop of `generate_trajectory_with_timestamps` over the remaining
number of steps: at each step query the propagator oracle at the current
time's Julian date; a non-zero error code raises (models the
`raise RuntimeError` — the whole call fails); otherwise transform to
geodetic coordinates and append point and timestamp only when the point
passes `is_valid_point`. Timestamps are the `current_time` values
themselves (their ISO-8601 rendering is order-isomorphic). -/
noncomputable def genLoop (sgp4 : ℚ → ℚ → Int × ℝ × ℝ × ℝ) (time_step_minutes : ℚ) :
    Nat → ℚ → Except Int (List (ℝ × ℝ × ℝ) × List ℚ)
  | 0, _ => Except.ok ([], [])
  | Nat.succ n, t =>
      let jf := jday t
      let r := sgp4 jf.1 jf.2
      if r.1 = 0 then
        let g := teme_to_latlonalt r.2 jf.1 jf.2
        match genLoop sgp4 time_step_minutes n (t + time_step_minutes / 1440) with
        | Except.error e => Except.error e
        | Except.ok (tr, ts) =>
            if is_valid_point g.1 g.2.1 then
              Except.ok ((g.2.1, g.1, g.2.2) :: tr, t :: ts)
            else
              Except.ok (tr, ts)
      else Except.error r.1

/-- Embedding of `generate_trajectory_with_timestamps(satellite,
start_time, duration_hours, time_step_minutes)` from `src/data.py`, with
the bound propagator `satellite.sgp4` abstracted as an oracle.
`Except.error e` models the `RuntimeError` raised on SGP4 error code `e`
(nothing is returned for the satellite in that case); on success the
trajectory is post-processed by `fix_idl_crossings`. -/
noncomputable def generate_trajectory_with_timestamps
    (sgp4 : ℚ → ℚ → Int × ℝ × ℝ × ℝ)
    (start_time duration_hours time_step_minutes : ℚ) :
    Except Int (List (ℝ × ℝ × ℝ) × List ℚ) :=
  match genLoop sgp4 time_step_minutes (total_steps_of duration_hours time_step_minutes).toNat
      start_time with
  | Except.error e => Except.error e
  | Except.ok (tr, ts) => Except.ok (fix_idl_crossings tr, ts)

/-- One output feature of the orchestrator: name, trajectory coordinates,
parallel timestamps and derived launch-group label. -/
structure Feature where
  name : String
  coordinates : List (ℝ × ℝ × ℝ)
  timestamps : List ℚ
  launch_group : String

/-- Embedding of the per-satellite orchestrator loop of `src/data.py`
(lines 202-228): for each `(name, line1, line2)`, an invalid TLE sends
the name to the skipped list; otherwise a trajectory is generated and
either a `Feature` is appended or — on a propagation failure, the only
exception source in the `try` block of this model, with `twoline2rv`
abstracted as a total oracle — the name is appended to the skipped list
and the batch continues. `none` models the whole script crashing on an
exception escaping `is_tle_valid`, which is called outside any
`try`. `main` instantiates `start = now = utcnow()`, `dur = 24`,
`step = 5`. -/
noncomputable def runPipeline (twoline2rv : String → String → ℚ → ℚ → Int × ℝ × ℝ × ℝ)
    (now start dur step : ℚ) :
    List (String × String × String) → Option (List Feature × List String)
  | [] => some ([], [])
  | sat :: rest =>
      match is_tle_valid sat.2.1 now with
      | none => none
      | some false =>
          match runPipeline twoline2rv now start dur step rest with
          | none => none
          | some (fs, sk) => some (fs, sat.1 :: sk)
      | some true =>
          match generate_trajectory_with_timestamps (twoline2rv sat.2.1 sat.2.2) start dur step with
          | Except.error _ =>
              match runPipeline twoline2rv now start dur step rest with
              | none => none
              | some (fs, sk) => some (fs, sat.1 :: sk)
          | Except.ok (tr, ts) =>
              match runPipeline twoline2rv now start dur step rest with
              | none => none
              | some (fs, sk) =>
                  some (⟨sat.1, tr, ts, get_launch_group sat.2.1⟩ :: fs, sk)

/-! ### Helper lemmas -/

lemma pyStrLt_five_seven (c9 c10 : Char)
    (h9a : 48 ≤ c9.toNat) (h9b : c9.toNat ≤ 57)
    (h10a : 48 ≤ c10.toNat) (h10b : c10.toNat ≤ 57) :
    pyStrLt ['5', '7'] [c9, c10] = decide (57 < 10 * digitVal c9 + digitVal c10) := by
  have h5 : ('5' : Char).toNat = 53 := rfl
  have h7 : ('7' : Char).toNat = 55 := rfl
  simp only [pyStrLt, h5, h7, digitVal]
  by_cases h1 : 53 < c9.toNat
  · have hP : 57 < 10 * (c9.toNat - 48) + (c10.toNat - 48) := by omega
    simp [h1, hP]
  · by_cases h2 : c9.toNat < 53
    · have hP : ¬ 57 < 10 * (c9.toNat - 48) + (c10.toNat - 48) := by omega
      simp [h1, h2, hP]
    · by_cases h3 : 55 < c10.toNat
      · have hP : 57 < 10 * (c9.toNat - 48) + (c10.toNat - 48) := by omega
        simp [h1, h2, h3, hP]
      · have hP : ¬ 57 < 10 * (c9.toNat - 48) + (c10.toNat - 48) := by omega
        simp [h1, h2, h3, hP]

lemma fixLoop_length {α : Type} [LinearOrderedField α] :
    ∀ (l : List (α × α × α)) (o : α) (pl : Option α),
      (fixLoop l o pl).length = l.length
  | [], _, _ => rfl
  | q :: rest, o, none => by
      simp only [fixLoop, List.length_cons]
      rw [fixLoop_length rest]
  | q :: rest, o, some pl => by
      simp only [fixLoop, List.length_cons]
      rw [fixLoop_length rest]

lemma fixLoop_map_snd {α : Type} [LinearOrderedField α] :
    ∀ (l : List (α × α × α)) (o : α) (pl : Option α),
      (fixLoop l o pl).map Prod.snd = l.map Prod.snd
  | [], _, _ => rfl
  | q :: rest, o, none => by
      simp only [fixLoop, List.map_cons]
      rw [fixLoop_map_snd rest]
  | q :: rest, o, some pl => by
      simp only [fixLoop, List.map_cons]
      rw [fixLoop_map_snd rest]

lemma fixLoop_offsets {α : Type} [LinearOrderedField α] :
    ∀ (l : List (α × α × α)) (o : α) (pl : Option α) (k : Int), o = 360 * (k : α) →
      List.Forall₂ (fun q q' => ∃ m : Int, q'.1 = q.1 + 360 * (m : α)) l (fixLoop l o pl)
  | [], _, _, _, _ => List.Forall₂.nil
  | q :: rest, o, none, k, hk => by
      simp only [fixLoop]
      exact List.Forall₂.cons ⟨k, by rw [hk]⟩ (fixLoop_offsets rest o _ k hk)
  | q :: rest, o, some pl, k, hk => by
      simp only [fixLoop]
      by_cases h1 : q.1 + o - pl > 180
      · rw [if_pos h1]
        exact List.Forall₂.cons ⟨k - 1, by rw [hk]; push_cast; ring⟩
          (fixLoop_offsets rest (o - 360) _ (k - 1) (by rw [hk]; push_cast; ring))
      · rw [if_neg h1]
        by_cases h2 : q.1 + o - pl < -180
        · rw [if_pos h2]
          exact List.Forall₂.cons ⟨k + 1, by rw [hk]; push_cast; ring⟩
            (fixLoop_offsets rest (o + 360) _ (k + 1) (by rw [hk]; push_cast; ring))
        · rw [if_neg h2]
          exact List.Forall₂.cons ⟨k, by rw [hk]⟩ (fixLoop_offsets rest o _ k hk)

lemma fixLoop_chain {α : Type} [LinearOrderedField α] :
    ∀ (l : List (α × α × α)) (o r : α),
      (∀ q ∈ l, -180 ≤ q.1 ∧ q.1 ≤ 180) → -180 ≤ r → r ≤ 180 →
      List.Chain (fun a b => |b - a| ≤ 180) (r + o)
        ((fixLoop l o (some (r + o))).map (fun q => q.1))
  | [], _, _, _, _, _ => List.Chain.nil
  | q :: rest, o, r, hb, hr1, hr2 => by
      have hq := hb q (List.mem_cons_self q rest)
      have hrest : ∀ p ∈ rest, -180 ≤ p.1 ∧ p.1 ≤ 180 :=
        fun p hp => hb p (List.mem_cons_of_mem q hp)
      simp only [fixLoop, List.map_cons]
      by_cases h1 : q.1 + o - (r + o) > 180
      · rw [if_pos h1]
        refine List.Chain.cons ?_ ?_
        · rw [abs_le]
          constructor <;> linarith
        · exact fixLoop_chain rest (o - 360) q.1 hrest hq.1 hq.2
      · rw [if_neg h1]
        by_cases h2 : q.1 + o - (r + o) < -180
        · rw [if_pos h2]
          refine List.Chain.cons ?_ ?_
          · rw [abs_le]
            constructor <;> linarith
          · exact fixLoop_chain rest (o + 360) q.1 hrest hq.1 hq.2
        · rw [if_neg h2]
          refine List.Chain.cons ?_ ?_
          · rw [abs_le]
            constructor <;> linarith
          · exact fixLoop_chain rest o q.1 hrest hq.1 hq.2

lemma fix_chain {α : Type} [LinearOrderedField α] (l : List (α × α × α))
    (hb : ∀ q ∈ l, -180 ≤ q.1 ∧ q.1 ≤ 180) :
    List.Chain' (fun a b => |b - a| ≤ 180) ((fix_idl_crossings l).map (fun q => q.1)) := by
  rcases l with _ | ⟨q, rest⟩
  · exact trivial
  · have hq := hb q (List.mem_cons_self q rest)
    have hrest : ∀ p ∈ rest, -180 ≤ p.1 ∧ p.1 ≤ 180 :=
      fun p hp => hb p (List.mem_cons_of_mem q hp)
    show List.Chain' _ ((fixLoop (q :: rest) 0 none).map (fun q => q.1))
    simp only [fixLoop, List.map_cons]
    show List.Chain _ (q.1 + 0) _
    exact fixLoop_chain rest 0 q.1 hrest hq.1 hq.2

lemma fixLoop_id_of_chain {α : Type} [LinearOrderedField α] :
    ∀ (l : List (α × α × α)) (pl : α),
      List.Chain (fun a b => |b - a| ≤ 180) pl (l.map (fun q => q.1)) →
      fixLoop l 0 (some pl) = l
  | [], _, _ => rfl
  | q :: rest, pl, h => by
      rw [List.map_cons] at h
      rcases h with _ | ⟨hhead, htail⟩
      have h1 : ¬ q.1 + 0 - pl > 180 := by
        have := (abs_le.mp hhead).2
        simp only [not_lt]
        linarith
      have h2 : ¬ q.1 + 0 - pl < -180 := by
        have := (abs_le.mp hhead).1
        simp only [not_lt]
        linarith
      simp only [fixLoop, if_neg h1, if_neg h2]
      rw [add_zero]
      exact congrArg (q :: ·) (fixLoop_id_of_chain rest q.1 htail)

lemma fix_id_of_chain {α : Type} [LinearOrderedField α] (l : List (α × α × α))
    (h : List.Chain' (fun a b => |b - a| ≤ 180) (l.map (fun q => q.1))) :
    fix_idl_crossings l = l := by
  rcases l with _ | ⟨q, rest⟩
  · rfl
  · show fixLoop (q :: rest) 0 none = q :: rest
    simp only [fixLoop]
    rw [add_zero]
    exact congrArg (q :: ·) (fixLoop_id_of_chain rest q.1 h)

/-! ### Claims about `get_launch_group` (C1, C2) -/

/-- Claim C1, amended: for a line whose international-designator field
`line1[9:17)` starts with two decimal digits, `get_launch_group` picks
century "19" exactly when the two-digit value is STRICTLY GREATER than
57 (the code compares the string `yy > "57"`), and century "20"
otherwise — so the designator year 57 maps to "2057", unlike the
Validity Assessor, which maps epoch year 57 to 1957 via `< 57`. -/
theorem get_launch_group_year_rule (line1 : String) (c9 c10 : Char) (ds : List Char)
    (hdes : pySlice line1 9 17 = c9 :: c10 :: ds)
    (h9a : 48 ≤ c9.toNat) (h9b : c9.toNat ≤ 57)
    (h10a : 48 ≤ c10.toNat) (h10b : c10.toNat ≤ 57) :
    get_launch_group line1 =
      (if 57 < 10 * digitVal c9 + digitVal c10 then "19" else "20") ++
        ⟨[c9, c10]⟩ ++ "-Launch-" ++ ⟨ds.take 3⟩ := by
  simp only [get_launch_group, hdes]
  rw [show (c9 :: c10 :: ds).take 2 = [c9, c10] from rfl,
    show (c9 :: c10 :: ds).drop 2 = ds from rfl,
    pyStrLt_five_seven c9 c10 h9a h9b h10a h10b]
  by_cases hP : 57 < 10 * digitVal c9 + digitVal c10
  · simp only [hP, decide_eq_true_eq, if_true, if_pos hP]
  · simp only [hP, decide_eq_true_eq, if_false, if_neg hP]

/-- Witness for `get_launch_group_year_rule` on the concrete ISS-style
line (designator year 98 is greater than 57, so century "19"). -/
theorem get_launch_group_year_rule_witness :
    get_launch_group "1 25544U 98067A   24001.50000000" =
      (if 57 < 10 * digitVal '9' + digitVal '8' then "19" else "20") ++
        ⟨['9', '8']⟩ ++ "-Launch-" ++ ⟨['0', '6', '7'].take 3⟩ :=
  get_launch_group_year_rule "1 25544U 98067A   24001.50000000" '9' '8'
    ['0', '6', '7', 'A', ' ', ' ']
    (by decide) (by decide) (by decide) (by decide) (by decide)

/-- Counterexample to claim C1 as stated: a designator year of exactly
57 is mapped to the 2000s ("2057-Launch-001"), not to 1957 as the
Assessor's rule (value ≥ 57 → 1900s) would give. -/
theorem get_launch_group_57_counterexample :
    get_launch_group "1 00001U 57001A  " = "2057-Launch-001" ∧
      get_launch_group "1 00001U 57001A  " ≠ "1957-Launch-001" := by
  constructor
  · rfl
  · decide

/-- Claim C2, amended: `get_launch_group` never lets an exception reach
its caller (in this embedding it is a total function), but a missing or
garbled designator does NOT produce the sentinel "Unknown": since Python
slicing and string comparison are total on `str`, the `except` branch of
the source is unreachable and the function always returns the assembled
`"..-Launch-.."` label, which always differs from "Unknown". -/
theorem get_launch_group_never_unknown (line1 : String) :
    get_launch_group line1 ≠ "Unknown" := by
  simp only [get_launch_group]
  by_cases h : pyStrLt ['5', '7'] ((pySlice line1 9 17).take 2)
  · simp only [h, if_true]
    intro hcontra
    rw [String.ext_iff] at hcontra
    simp [String.data_append] at hcontra
  · simp only [h, if_false]
    intro hcontra
    rw [String.ext_iff] at hcontra
    simp [String.data_append] at hcontra

/-- Counterexample to claim C2 as stated: the empty line (certainly a
missing designator) yields the degenerate label "20-Launch-", not the
sentinel "Unknown". -/
theorem get_launch_group_garbled_counterexample :
    get_launch_group "" = "20-Launch-" ∧ get_launch_group "" ≠ "Unknown" := by
  constructor
  · rfl
  · decide

/-! ### Claims about `fix_idl_crossings` (C5, C6, C10) -/

/-- Claim C5: on a trajectory whose raw longitudes lie in [-180, 180],
the corrected longitudes never jump by more than 180 in absolute value
between consecutive points, and each output longitude is congruent to
its input longitude modulo 360 (the running offset is a multiple of
360). -/
theorem fix_idl_crossings_bounded_and_congruent {α : Type} [LinearOrderedField α]
    (traj : List (α × α × α)) (hb : ∀ q ∈ traj, -180 ≤ q.1 ∧ q.1 ≤ 180) :
    List.Chain' (fun a b => |b - a| ≤ 180) ((fix_idl_crossings traj).map (fun q => q.1)) ∧
      List.Forall₂ (fun q q' => ∃ m : Int, q'.1 = q.1 + 360 * (m : α))
        traj (fix_idl_crossings traj) :=
  ⟨fix_chain traj hb, fixLoop_offsets traj 0 none 0 (by ring)⟩

/-- Witness for `fix_idl_crossings_bounded_and_congruent` on the spec's
concrete input longitudes [170, -170, 170, -170]. -/
theorem fix_idl_crossings_bounded_witness :
    List.Chain' (fun a b => |b - a| ≤ 180)
        ((fix_idl_crossings
            ([(170, 0, 0), (-170, 0, 0), (170, 0, 0), (-170, 0, 0)] :
              List (ℚ × ℚ × ℚ))).map (fun q => q.1)) ∧
      List.Forall₂ (fun q q' => ∃ m : Int, q'.1 = q.1 + 360 * (m : ℚ))
        ([(170, 0, 0), (-170, 0, 0), (170, 0, 0), (-170, 0, 0)] : List (ℚ × ℚ × ℚ))
        (fix_idl_crossings
          ([(170, 0, 0), (-170, 0, 0), (170, 0, 0), (-170, 0, 0)] : List (ℚ × ℚ × ℚ))) :=
  fix_idl_crossings_bounded_and_congruent _ (by
    intro q hq
    rcases List.mem_cons.mp hq with h | hq
    · rw [h]; norm_num
    rcases List.mem_cons.mp hq with h | hq
    · rw [h]; norm_num
    rcases List.mem_cons.mp hq with h | hq
    · rw [h]; norm_num
    rcases List.mem_cons.mp hq with h | hq
    · rw [h]; norm_num
    · simp at hq)

/-- Claim C6: `fix_idl_crossings` preserves length and every point's
latitude and altitude (the `Prod.snd` projection), maps the empty
trajectory to the empty trajectory, and returns a single-point
trajectory unchanged. -/
theorem fix_idl_crossings_preserves_frame {α : Type} [LinearOrderedField α]
    (traj : List (α × α × α)) (point : α × α × α) :
    (fix_idl_crossings traj).length = traj.length ∧
      (fix_idl_crossings traj).map Prod.snd = traj.map Prod.snd ∧
      fix_idl_crossings ([] : List (α × α × α)) = [] ∧
      fix_idl_crossings [point] = [point] := by
  refine ⟨fixLoop_length traj 0 none, fixLoop_map_snd traj 0 none, rfl, ?_⟩
  show fixLoop [point] 0 none = [point]
  simp only [fixLoop]
  rw [add_zero]

/-- Claim C10: on raw longitudes in [-180, 180] the corrector is
idempotent — its output already satisfies the 180-degree consecutive
bound, so a second pass changes no offset. -/
theorem fix_idl_crossings_idempotent {α : Type} [LinearOrderedField α]
    (traj : List (α × α × α)) (hb : ∀ q ∈ traj, -180 ≤ q.1 ∧ q.1 ≤ 180) :
    fix_idl_crossings (fix_idl_crossings traj) = fix_idl_crossings traj :=
  fix_id_of_chain _ (fix_chain traj hb)

/-- Witness for `fix_idl_crossings_idempotent` at a concrete
antimeridian-crossing trajectory. -/
theorem fix_idl_crossings_idempotent_witness :
    fix_idl_crossings (fix_idl_crossings
        ([(170, 1, 2), (-170, 3, 4)] : List (ℚ × ℚ × ℚ))) =
      fix_idl_crossings ([(170, 1, 2), (-170, 3, 4)] : List (ℚ × ℚ × ℚ)) :=
  fix_idl_crossings_idempotent _ (by
    intro q hq
    rcases List.mem_cons.mp hq with h | hq
    · rw [h]; norm_num
    rcases List.mem_cons.mp hq with h | hq
    · rw [h]; norm_num
    · simp at hq)

/-! ### Claims about `is_tle_valid` (C3, C4) -/

lemma datetimeOrdinal_bounds (y : Int) (h1 : 1957 ≤ y) (h2 : y ≤ 2056) :
    714415 ≤ datetimeOrdinal y ∧ datetimeOrdinal y ≤ 750574 := by
  simp only [datetimeOrdinal]
  omega

/-- Claim C3: for a line of full length whose epoch fields parse as a
two-digit year and a finite in-range day-of-year, `is_tle_valid` returns
`True` exactly when the element set is strictly less than 30 days old at
the current time `now` — so an epoch 29 or 29.99 days old is valid, one
30.0 or 31 days old is invalid, and any future epoch is valid. -/
theorem is_tle_valid_iff_fresh (line1 : String) (now : ℚ) (ey : Int) (d : ℚ)
    (hlen : ¬ line1.length < 32)
    (hyear : pyParseInt (pySlice line1 18 20) = some ey)
    (hday : pyParseFloat (pySlice line1 20 32) = some (PyFloat.finite d))
    (hey1 : 0 ≤ ey) (hey2 : ey ≤ 99)
    (hd1 : 1 ≤ d) (hd2 : d < 367) :
    (is_tle_valid line1 now = some true ↔ now - tleEpoch ey d < 30) := by
  have hyr1 : 1957 ≤ ey + (if ey < 57 then 2000 else 1900) := by split <;> omega
  have hyr2 : ey + (if ey < 57 then 2000 else 1900) ≤ 2056 := by split <;> omega
  obtain ⟨hb1, hb2⟩ := datetimeOrdinal_bounds _ hyr1 hyr2
  have hfl1 : 0 ≤ ⌊d - 1⌋ := by
    rw [Int.le_floor]
    push_cast
    linarith
  have hfl2 : ⌊d - 1⌋ < 366 := by
    rw [Int.floor_lt]
    push_cast
    linarith
  unfold is_tle_valid
  rw [if_neg hlen, hyear, hday]
  dsimp only
  have hcy : ¬ (ey + (if ey < 57 then 2000 else 1900) < 1 ∨
      9999 < ey + (if ey < 57 then 2000 else 1900)) := by omega
  rw [if_neg hcy]
  have hcr : ¬ (d - 1 < -999999999 ∨ (1000000000 : ℚ) ≤ d - 1) := by
    push_neg
    constructor <;> linarith
  rw [if_neg hcr]
  have hepoch : ⌊(datetimeOrdinal (ey + (if ey < 57 then 2000 else 1900)) : ℚ) + (d - 1)⌋ =
      datetimeOrdinal (ey + (if ey < 57 then 2000 else 1900)) + ⌊d - 1⌋ :=
    Int.floor_int_add _ _
  have hco : ¬ (⌊(datetimeOrdinal (ey + (if ey < 57 then 2000 else 1900)) : ℚ) + (d - 1)⌋ < 1 ∨
      3652059 < ⌊(datetimeOrdinal (ey + (if ey < 57 then 2000 else 1900)) : ℚ) + (d - 1)⌋) := by
    rw [hepoch]
    omega
  rw [if_neg hco]
  simp only [tleEpoch]
  constructor
  · intro h
    have := Option.some_inj.mp h
    rw [decide_eq_true_eq] at this
    have h30 := Int.floor_lt.mp this
    push_cast at h30
    linarith
  · intro h
    have : ⌊now - ((datetimeOrdinal (ey + (if ey < 57 then 2000 else 1900)) : ℚ) + (d - 1))⌋ <
        (30 : Int) := by
      rw [Int.floor_lt]
      push_cast
      linarith
    rw [decide_eq_true this]

/-- Witness for `is_tle_valid_iff_fresh`: a fresh (10-day-old) ISS-style
epoch field "24001.50000000" assessed at `now = 738896.5` ordinal days. -/
theorem is_tle_valid_iff_fresh_witness :
    is_tle_valid "1 25544U 98067A   24001.50000000" 738896.5 = some true :=
  (is_tle_valid_iff_fresh "1 25544U 98067A   24001.50000000" 738896.5 24 (3 / 2)
    (by decide) (by decide)
    (by
      simp +decide [pyParseFloat, pyParseUnsignedFloat, pySlice, allDigits, digitsVal, digitVal]
      norm_num)
    (by decide) (by decide) (by norm_num) (by norm_num)).mpr (by
      norm_num [tleEpoch, datetimeOrdinal])

/-- Claim C4, amended: a `line1` shorter than 32 characters, or whose
epoch fields fail to parse as a Python `int` / `float`, makes
`is_tle_valid` return `False` without an exception escaping; however a
day field consisting of non-digit characters that `float` still accepts
as an infinity (e.g. `"         inf"`) makes `timedelta` raise an
`OverflowError` that the `except (ValueError, IndexError)` clause does
not catch, so it propagates to the caller. -/
theorem is_tle_valid_malformed_false (line1 : String) (now : ℚ)
    (h : line1.length < 32 ∨ pyParseInt (pySlice line1 18 20) = none ∨
      pyParseFloat (pySlice line1 20 32) = none) :
    is_tle_valid line1 now = some false := by
  by_cases hlen : line1.length < 32
  · unfold is_tle_valid
    rw [if_pos hlen]
  · rcases h with h | h | h
    · exact absurd h hlen
    · unfold is_tle_valid
      rw [if_neg hlen, h]
    · unfold is_tle_valid
      rw [if_neg hlen, h]
      rcases hpi : pyParseInt (pySlice line1 18 20) with _ | ey <;> simp

/-- Witness for `is_tle_valid_malformed_false`: a 20-character line is
rejected as invalid (and no exception escapes). -/
theorem is_tle_valid_malformed_false_witness :
    is_tle_valid "1 25544U 98067A  24x" 0 = some false :=
  is_tle_valid_malformed_false "1 25544U 98067A  24x" 0 (Or.inl (by decide))

/-- Counterexample to claim C4 as stated: the epoch-day field
`"         inf"` is made of non-digit characters, yet `is_tle_valid`
does not return `False` — `float` accepts it as infinity and
`timedelta(days=inf)` raises an uncaught `OverflowError` (modelled by
`none`), which escapes to the caller. -/
theorem is_tle_valid_inf_counterexample :
    is_tle_valid "1 25544U 98067A   24         inf" 0 = none ∧
      pySlice "1 25544U 98067A   24         inf" 20 32 = "         inf".data := by
  constructor
  · decide
  · decide

/-! ### Claims about the trajectory generator and orchestrator (C7, C8) -/

lemma genLoop_ok_inv (sgp4 : ℚ → ℚ → Int × ℝ × ℝ × ℝ) (step : ℚ) (hstep : 0 < step) :
    ∀ (n : Nat) (t : ℚ) (tr : List (ℝ × ℝ × ℝ)) (ts : List ℚ),
      genLoop sgp4 step n t = Except.ok (tr, ts) →
      tr.length = ts.length ∧ ts.length ≤ n ∧ ts.Pairwise (· < ·) ∧ ∀ u ∈ ts, t ≤ u
  | 0, t, tr, ts, h => by
      simp only [genLoop, Except.ok.injEq, Prod.mk.injEq] at h
      obtain ⟨h1, h2⟩ := h
      subst h1
      subst h2
      simp
  | Nat.succ n, t, tr, ts, h => by
      have hdpos : 0 < step / 1440 := by positivity
      simp only [genLoop] at h
      by_cases he : (sgp4 (jday t).1 (jday t).2).1 = 0
      · rw [if_pos he] at h
        rcases hrec : genLoop sgp4 step n (t + step / 1440) with e | ⟨tr', ts'⟩
        · rw [hrec] at h
          cases h
        · rw [hrec] at h
          dsimp only at h
          obtain ⟨hl, hn, hp, hlb⟩ := genLoop_ok_inv sgp4 step hstep n _ tr' ts' hrec
          by_cases hv :
              is_valid_point
                (teme_to_latlonalt (sgp4 (jday t).1 (jday t).2).2 (jday t).1 (jday t).2).1
                (teme_to_latlonalt (sgp4 (jday t).1 (jday t).2).2 (jday t).1 (jday t).2).2.1
          · rw [if_pos hv] at h
            simp only [Except.ok.injEq, Prod.mk.injEq] at h
            obtain ⟨h1, h2⟩ := h
            subst h1
            subst h2
            refine ⟨by simp [hl], by simp [hn], ?_, ?_⟩
            · exact List.Pairwise.cons (fun u hu => by have := hlb u hu; linarith) hp
            · intro u hu
              rcases List.mem_cons.mp hu with rfl | hu
              · exact le_refl u
              · have := hlb u hu
                linarith
          · rw [if_neg hv] at h
            simp only [Except.ok.injEq, Prod.mk.injEq] at h
            obtain ⟨h1, h2⟩ := h
            subst h1
            subst h2
            refine ⟨hl, by omega, hp, ?_⟩
            intro u hu
            have := hlb u hu
            linarith
      · rw [if_neg he] at h
        cases h

lemma total_steps_24_5 : total_steps_of 24 5 = 288 := by
  unfold total_steps_of pyIntTrunc
  rw [if_neg (by norm_num), show (24 : ℚ) * 60 / 5 = ((288 : Int) : ℚ) by norm_num,
    Int.floor_intCast]

/-- Claim C7: the generator attempts exactly
`int(duration_hours·60 / time_step_minutes)` steps, which for positive
inputs is the floor of that quotient (288 steps for a 24-hour window at
a 5-minute step); whenever it returns without error the point list and
timestamp list have equal length, at most the number of attempted steps,
and the timestamps are strictly increasing. -/
theorem generate_trajectory_shape (sgp4 : ℚ → ℚ → Int × ℝ × ℝ × ℝ)
    (start dur step : ℚ) (hdur : 0 < dur) (hstep : 0 < step)
    (tr : List (ℝ × ℝ × ℝ)) (ts : List ℚ)
    (hok : generate_trajectory_with_timestamps sgp4 start dur step = Except.ok (tr, ts)) :
    (total_steps_of dur step = ⌊dur * 60 / step⌋ ∧ total_steps_of 24 5 = 288) ∧
      tr.length = ts.length ∧
      ts.length ≤ (total_steps_of dur step).toNat ∧
      ts.Pairwise (· < ·) := by
  have hq : ¬ (dur * 60 / step < 0) := by
    push_neg
    positivity
  have htot : total_steps_of dur step = ⌊dur * 60 / step⌋ := by
    unfold total_steps_of pyIntTrunc
    rw [if_neg hq]
  refine ⟨⟨htot, total_steps_24_5⟩, ?_⟩
  unfold generate_trajectory_with_timestamps at hok
  rcases hg : genLoop sgp4 step (total_steps_of dur step).toNat start with e | ⟨tr', ts'⟩
  · rw [hg] at hok
    cases hok
  · rw [hg] at hok
    simp only [Except.ok.injEq, Prod.mk.injEq] at hok
    obtain ⟨htr, hts⟩ := hok
    obtain ⟨hl, hn, hp, _⟩ := genLoop_ok_inv sgp4 step hstep _ start tr' ts' hg
    subst htr
    subst hts
    refine ⟨?_, hn, hp⟩
    show (fixLoop tr' 0 none).length = ts'.length
    rw [fixLoop_length]
    exact hl

/-- Witness for `generate_trajectory_shape`: a duration short enough
that zero steps are attempted, so the generator returns empty lists. -/
theorem generate_trajectory_shape_witness :
    (total_steps_of (1 / 100) 5 = ⌊(1 / 100 : ℚ) * 60 / 5⌋ ∧ total_steps_of 24 5 = 288) ∧
      ([] : List (ℝ × ℝ × ℝ)).length = ([] : List ℚ).length ∧
      ([] : List ℚ).length ≤ (total_steps_of (1 / 100) 5).toNat ∧
      ([] : List ℚ).Pairwise (· < ·) :=
  generate_trajectory_shape (fun _ _ => (0, (0, 0, 0))) 0 (1 / 100) 5
    (by norm_num) (by norm_num) [] [] (by
      have h0 : total_steps_of (1 / 100) 5 = 0 := by
        unfold total_steps_of pyIntTrunc
        rw [if_neg (by norm_num)]
        rw [show (1 / 100 : ℚ) * 60 / 5 = 3 / 25 by norm_num]
        rw [Int.floor_eq_zero_iff.mpr (by constructor <;> norm_num)]
      unfold generate_trajectory_with_timestamps
      rw [h0]
      rfl)

/-- The orchestrator processes a concatenated catalog as the two halves
in sequence, concatenating features and skipped names. -/
lemma runPipeline_append_ok (tlrv : String → String → ℚ → ℚ → Int × ℝ × ℝ × ℝ)
    (now start dur step : ℚ) :
    ∀ (xs ys : List (String × String × String)) (f1 f2 : List Feature) (s1 s2 : List String),
      runPipeline tlrv now start dur step xs = some (f1, s1) →
      runPipeline tlrv now start dur step ys = some (f2, s2) →
      runPipeline tlrv now start dur step (xs ++ ys) = some (f1 ++ f2, s1 ++ s2)
  | [], ys, f1, f2, s1, s2, hxs, hys => by
      simp only [runPipeline, Option.some.injEq, Prod.mk.injEq] at hxs
      obtain ⟨rfl, rfl⟩ := hxs
      simpa using hys
  | x :: xs, ys, f1, f2, s1, s2, hxs, hys => by
      rw [List.cons_append]
      simp only [runPipeline] at hxs ⊢
      rcases hv : is_tle_valid x.2.1 now with _ | b
      · rw [hv] at hxs
        cases hxs
      · rw [hv] at hxs
        cases b
        · dsimp only at hxs ⊢
          rcases hrx : runPipeline tlrv now start dur step xs with _ | ⟨fs, sk⟩
          · rw [hrx] at hxs
            cases hxs
          · rw [hrx] at hxs
            simp only [Option.some.injEq, Prod.mk.injEq] at hxs
            obtain ⟨rfl, rfl⟩ := hxs
            rw [runPipeline_append_ok tlrv now start dur step xs ys fs f2 sk s2 hrx hys]
            simp
        · dsimp only at hxs ⊢
          rcases hgen : generate_trajectory_with_timestamps (tlrv x.2.1 x.2.2) start dur step
              with e | ⟨tr, ts⟩
          · rw [hgen] at hxs
            dsimp only at hxs ⊢
            rcases hrx : runPipeline tlrv now start dur step xs with _ | ⟨fs, sk⟩
            · rw [hrx] at hxs
              cases hxs
            · rw [hrx] at hxs
              simp only [Option.some.injEq, Prod.mk.injEq] at hxs
              obtain ⟨rfl, rfl⟩ := hxs
              rw [runPipeline_append_ok tlrv now start dur step xs ys fs f2 sk s2 hrx hys]
              simp
          · rw [hgen] at hxs
            dsimp only at hxs ⊢
            rcases hrx : runPipeline tlrv now start dur step xs with _ | ⟨fs, sk⟩
            · rw [hrx] at hxs
              cases hxs
            · rw [hrx] at hxs
              simp only [Option.some.injEq, Prod.mk.injEq] at hxs
              obtain ⟨rfl, rfl⟩ := hxs
              rw [runPipeline_append_ok tlrv now start dur step xs ys fs f2 sk s2 hrx hys]
              simp

/-- Claim C8: if a satellite passes validity but its propagator errors at
some step, its whole generation fails: the orchestrator emits no feature
for it (not even a partial one), appends exactly its name to the skipped
list between the surrounding batches' skips, and processes the rest of
the catalog unperturbed. -/
theorem propagation_failure_skips_satellite
    (tlrv : String → String → ℚ → ℚ → Int × ℝ × ℝ × ℝ)
    (now start dur step : ℚ) (nm l1 l2 : String) (e : Int)
    (pre post : List (String × String × String))
    (f1 f2 : List Feature) (s1 s2 : List String)
    (hvalid : is_tle_valid l1 now = some true)
    (herr : generate_trajectory_with_timestamps (tlrv l1 l2) start dur step = Except.error e)
    (hpre : runPipeline tlrv now start dur step pre = some (f1, s1))
    (hpost : runPipeline tlrv now start dur step post = some (f2, s2)) :
    runPipeline tlrv now start dur step (pre ++ (nm, l1, l2) :: post) =
      some (f1 ++ f2, s1 ++ nm :: s2) := by
  have hmid : runPipeline tlrv now start dur step ((nm, l1, l2) :: post) =
      some (f2, nm :: s2) := by
    simp only [runPipeline]
    rw [hvalid]
    dsimp only
    rw [herr]
    dsimp only
    rw [hpost]
  exact runPipeline_append_ok tlrv now start dur step pre ((nm, l1, l2) :: post)
    f1 f2 s1 (nm :: s2) hpre hmid

/-- Direct evaluation of `is_tle_valid` on a fresh concrete line
(epoch day 1.5 of year 2024, assessed 10 days later). -/
lemma is_tle_valid_fresh_eval :
    is_tle_valid "1 25544U 98067A   24001.50000000" 738896.5 = some true := by
  have hday : pyParseFloat (pySlice "1 25544U 98067A   24001.50000000" 20 32) =
      some (PyFloat.finite (3 / 2)) := by
    simp +decide [pyParseFloat, pyParseUnsignedFloat, pySlice, allDigits, digitsVal, digitVal]
    norm_num
  have hyear : pyParseInt (pySlice "1 25544U 98067A   24001.50000000" 18 20) = some 24 := by
    decide
  unfold is_tle_valid
  rw [if_neg (by decide), hyear, hday]
  dsimp only
  rw [if_neg (by decide)]
  rw [if_neg (by norm_num : ¬ ((3 : ℚ) / 2 - 1 < -999999999 ∨ (1000000000 : ℚ) ≤ 3 / 2 - 1))]
  rw [show datetimeOrdinal (24 + (if (24 : Int) < 57 then 2000 else 1900)) = 738886 from by
    decide]
  have hfl : ⌊((738886 : Int) : ℚ) + (3 / 2 - 1)⌋ = 738886 := by
    rw [Int.floor_int_add]
    norm_num
  rw [if_neg (by rw [hfl]; norm_num)]
  have h30 : ⌊(738896.5 : ℚ) - (((738886 : Int) : ℚ) + (3 / 2 - 1))⌋ < 30 := by
    norm_num
  rw [decide_eq_true h30]

/-- One step of `genLoop` with a propagator that reports a non-zero
error code fails immediately with that code. -/
lemma genLoop_error_head (sgp4 : ℚ → ℚ → Int × ℝ × ℝ × ℝ) (step : ℚ) (n : Nat) (t : ℚ)
    (e : Int) (he : (sgp4 (jday t).1 (jday t).2).1 = e) (hne : ¬ e = 0) :
    genLoop sgp4 step (n + 1) t = Except.error e := by
  simp only [genLoop]
  rw [he, if_neg hne]

/-- Direct evaluation: with an always-failing propagator (error code 1),
the 24-hour / 5-minute generation fails with error code 1 at its first
of 288 attempted steps. -/
lemma generate_error_eval :
    generate_trajectory_with_timestamps (fun _ _ => ((1 : Int), ((0 : ℝ), 0, 0)))
      738896.5 24 5 = Except.error 1 := by
  have h288 : (total_steps_of 24 5).toNat = 288 := by
    rw [total_steps_24_5]
    rfl
  unfold generate_trajectory_with_timestamps
  rw [h288, show (288 : Nat) = 287 + 1 from rfl,
    genLoop_error_head _ 5 287 738896.5 1 rfl (by decide)]

/-- Witness for `propagation_failure_skips_satellite`: a one-satellite
catalog whose (fresh) element set meets an error-code-1 propagator is
fully skipped and the run still completes. -/
theorem propagation_failure_skips_witness :
    runPipeline (fun _ _ _ _ => ((1 : Int), ((0 : ℝ), 0, 0))) 738896.5 738896.5 24 5
        ([] ++ ("STARLINK-1", "1 25544U 98067A   24001.50000000", "2 25544") :: []) =
      some ([] ++ [], [] ++ "STARLINK-1" :: []) :=
  propagation_failure_skips_satellite (fun _ _ _ _ => ((1 : Int), ((0 : ℝ), 0, 0)))
    738896.5 738896.5 24 5 "STARLINK-1" "1 25544U 98067A   24001.50000000" "2 25544" 1
    [] [] [] [] [] []
    is_tle_valid_fresh_eval generate_error_eval rfl rfl

/-! ### Claims about the geodetic conversion (C9) -/

lemma WGS84_A_pos : (0 : ℝ) < WGS84_A := by
  unfold WGS84_A
  norm_num

lemma WGS84_B_pos : (0 : ℝ) < WGS84_B := by
  unfold WGS84_B
  norm_num

lemma WGS84_EP2_pos : (0 : ℝ) < WGS84_EP2 := by
  unfold WGS84_EP2 WGS84_A WGS84_B
  rw [lt_sub_iff_add_lt, zero_add, lt_div_iff₀ (by norm_num)]
  norm_num

lemma WGS84_E2A_lt_43 : WGS84_E2 * WGS84_A < 43 := by
  unfold WGS84_E2 WGS84_A WGS84_B
  norm_num

lemma WGS84_E2A_gt_10 : (10 : ℝ) < WGS84_E2 * WGS84_A := by
  unfold WGS84_E2 WGS84_A WGS84_B
  norm_num

lemma atan2_zero_of_pos (x : ℝ) (hx : 0 < x) : atan2 0 x = 0 := by
  unfold atan2
  rw [show (⟨x, 0⟩ : ℂ) = (x : ℂ) from rfl]
  exact Complex.arg_ofReal_of_nonneg hx.le

lemma atan2_zero_of_neg (x : ℝ) (hx : x < 0) : atan2 0 x = Real.pi := by
  unfold atan2
  rw [show (⟨x, 0⟩ : ℂ) = (x : ℂ) from rfl]
  exact Complex.arg_ofReal_of_neg hx

lemma atan2_pos_zero (y : ℝ) (hy : 0 < y) : atan2 y 0 = Real.pi / 2 :=
  Complex.arg_eq_pi_div_two_iff.mpr ⟨rfl, hy⟩

lemma atan2_neg_zero (y : ℝ) (hy : y < 0) : atan2 y 0 = -(Real.pi / 2) :=
  Complex.arg_eq_neg_pi_div_two_iff.mpr ⟨rfl, hy⟩

lemma degrees_zero : degrees 0 = 0 := by
  unfold degrees
  rw [zero_mul, zero_div]

lemma degrees_pi : degrees Real.pi = 180 := by
  unfold degrees
  rw [mul_comm, mul_div_assoc, div_self Real.pi_ne_zero, mul_one]

lemma degrees_pi_div_two : degrees (Real.pi / 2) = 90 := by
  unfold degrees
  field_simp
  ring

lemma degrees_neg_pi_div_two : degrees (-(Real.pi / 2)) = -90 := by
  unfold degrees
  field_simp
  ring

lemma pyFMod_180_360 : pyFMod 180 360 = 180 := by
  unfold pyFMod
  rw [show (180 : ℝ) / 360 = 1 / 2 by norm_num]
  rw [show ⌊(1 / 2 : ℝ)⌋ = 0 from by norm_num]
  norm_num

lemma ecef_to_geodetic_pole_pos (z : ℝ) (hz : 0 < z) :
    (ecef_to_geodetic 0 0 z).1 = 90 ∧ (ecef_to_geodetic 0 0 z).2.1 = 0 := by
  have hp : Real.sqrt ((0 : ℝ) ^ 2 + 0 ^ 2) = 0 := by norm_num
  have hzA : 0 < z * WGS84_A := mul_pos hz WGS84_A_pos
  have hEPB : 0 < WGS84_EP2 * WGS84_B := mul_pos WGS84_EP2_pos WGS84_B_pos
  simp only [ecef_to_geodetic, hp]
  rw [if_true, zero_mul, atan2_pos_zero _ hzA,
    Real.sin_pi_div_two, Real.cos_pi_div_two,
    show (0 : ℝ) - WGS84_E2 * WGS84_A * 0 ^ 3 = 0 by ring,
    show z + WGS84_EP2 * WGS84_B * 1 ^ 3 = z + WGS84_EP2 * WGS84_B by ring,
    atan2_pos_zero _ (by linarith)]
  constructor
  · exact degrees_pi_div_two
  · rw [degrees_zero, zero_add]
    norm_num [pyFMod_180_360]

lemma ecef_to_geodetic_pole_neg (z : ℝ) (hz : z < 0) :
    (ecef_to_geodetic 0 0 z).1 = -90 ∧ (ecef_to_geodetic 0 0 z).2.1 = 0 := by
  have hp : Real.sqrt ((0 : ℝ) ^ 2 + 0 ^ 2) = 0 := by norm_num
  have hzA : z * WGS84_A < 0 := mul_neg_of_neg_of_pos hz WGS84_A_pos
  have hEPB : 0 < WGS84_EP2 * WGS84_B := mul_pos WGS84_EP2_pos WGS84_B_pos
  simp only [ecef_to_geodetic, hp]
  rw [if_true, zero_mul, atan2_neg_zero _ hzA,
    Real.sin_neg, Real.cos_neg, Real.sin_pi_div_two, Real.cos_pi_div_two,
    show (0 : ℝ) - WGS84_E2 * WGS84_A * 0 ^ 3 = 0 by ring,
    show z + WGS84_EP2 * WGS84_B * (-1) ^ 3 = z - WGS84_EP2 * WGS84_B by ring,
    atan2_neg_zero _ (by linarith)]
  constructor
  · exact degrees_neg_pi_div_two
  · rw [degrees_zero, zero_add]
    norm_num [pyFMod_180_360]

lemma ecef_to_geodetic_equator_far (x y : ℝ)
    (hfar : WGS84_E2 * WGS84_A < Real.sqrt (x ^ 2 + y ^ 2)) :
    (ecef_to_geodetic x y 0).1 = 0 := by
  have hE2A : 0 < WGS84_E2 * WGS84_A := by
    have h10 := WGS84_E2A_gt_10
    linarith
  have hppos : 0 < Real.sqrt (x ^ 2 + y ^ 2) := lt_trans hE2A hfar
  simp only [ecef_to_geodetic]
  rw [zero_mul, atan2_zero_of_pos _ (mul_pos hppos WGS84_B_pos),
    Real.sin_zero, Real.cos_zero,
    show (0 : ℝ) + WGS84_EP2 * WGS84_B * 0 ^ 3 = 0 by ring,
    show Real.sqrt (x ^ 2 + y ^ 2) - WGS84_E2 * WGS84_A * 1 ^ 3 =
      Real.sqrt (x ^ 2 + y ^ 2) - WGS84_E2 * WGS84_A by ring,
    atan2_zero_of_pos _ (by linarith)]
  exact degrees_zero

/-- Claim C9, amended: a position on the polar axis (`x = y = 0`,
`z ≠ 0`) maps to latitude +90 degrees for `z > 0` and -90 degrees for
`z < 0`, with longitude reported as zero; a position in the equatorial
plane (`z = 0`) maps to latitude 0 PROVIDED its planar radius exceeds
`WGS84_E2 · WGS84_A` (about 42.7 km) — for smaller planar radii the
Bowring denominator `p - e²·a·cos³θ` is negative and the code returns
latitude 180 degrees instead (see the counterexample). -/
theorem ecef_to_geodetic_pole_equator (x y z : ℝ) :
    (x = 0 → y = 0 → z ≠ 0 →
      (ecef_to_geodetic x y z).1 = (if 0 < z then 90 else -90) ∧
        (ecef_to_geodetic x y z).2.1 = 0) ∧
    (z = 0 → WGS84_E2 * WGS84_A < Real.sqrt (x ^ 2 + y ^ 2) →
      (ecef_to_geodetic x y z).1 = 0) := by
  constructor
  · rintro rfl rfl hz
    rcases lt_or_gt_of_ne hz with hneg | hpos
    · rw [if_neg (by linarith)]
      exact ecef_to_geodetic_pole_neg z hneg
    · rw [if_pos hpos]
      exact ecef_to_geodetic_pole_pos z hpos
  · rintro rfl hfar
    exact ecef_to_geodetic_equator_far x y hfar

/-- Witness for `ecef_to_geodetic_pole_equator`: the north-pole direction
(0, 0, 1000) and an equatorial point 7000 km out. -/
theorem ecef_to_geodetic_pole_equator_witness :
    ((ecef_to_geodetic 0 0 1000).1 = (if (0 : ℝ) < 1000 then 90 else -90) ∧
        (ecef_to_geodetic 0 0 1000).2.1 = 0) ∧
      (ecef_to_geodetic 7000 0 0).1 = 0 :=
  ⟨(ecef_to_geodetic_pole_equator 0 0 1000).1 rfl rfl (by norm_num),
   (ecef_to_geodetic_pole_equator 7000 0 0).2 rfl (by
      rw [show (7000 : ℝ) ^ 2 + 0 ^ 2 = 7000 ^ 2 by norm_num,
        Real.sqrt_sq (by norm_num : (0 : ℝ) ≤ 7000)]
      have := WGS84_E2A_lt_43
      linarith)⟩

/-- Counterexample to claim C9 as stated: the equatorial point
(10, 0, 0) km — planar radius 10 km, below `e²·a` ≈ 42.7 km — is mapped
to latitude 180 degrees, not 0. -/
theorem ecef_to_geodetic_equator_counterexample :
    (ecef_to_geodetic 10 0 0).1 = 180 := by
  have hp : Real.sqrt ((10 : ℝ) ^ 2 + 0 ^ 2) = 10 := by
    rw [show (10 : ℝ) ^ 2 + 0 ^ 2 = 10 ^ 2 by norm_num]
    exact Real.sqrt_sq (by norm_num)
  have hBpos := WGS84_B_pos
  simp only [ecef_to_geodetic, hp]
  rw [zero_mul, atan2_zero_of_pos _ (by linarith : (0 : ℝ) < 10 * WGS84_B),
    Real.sin_zero, Real.cos_zero,
    show (0 : ℝ) + WGS84_EP2 * WGS84_B * 0 ^ 3 = 0 by ring,
    show (10 : ℝ) - WGS84_E2 * WGS84_A * 1 ^ 3 = 10 - WGS84_E2 * WGS84_A by ring,
    atan2_zero_of_neg _ (by have := WGS84_E2A_gt_10; linarith)]
  exact degrees_pi

end Starlink
